import Mathlib

/-!
Shallow embedding of the trengin trading-engine core (trengin.go).

Modelling conventions:
* Go float64 values (prices, offsets, commission) are modelled as exact
  rationals; the claims state exact algebraic formulas, which is what the
  source expressions compute.
* Go time.Time is modelled as an integer timestamp; the zero value of
  time.Time corresponds to 0.
* The pair (closedOnce : sync.Once, closed : chan struct) on Position is
  modelled by a single Bool field closed: in the source the Once guard fires
  exactly when the channel becomes closed (both happen only inside
  Position.Close), so one Bool tracks both faithfully.  A closed channel is
  receivable, so "the channel returned by Closed() is receivable" is the
  Bool being true.
* Go errors are an inductive type; the nil error is Option.none.  Error
  wrapping with fmt.Errorf("...: %w", err) is the wrapped constructor, and
  errors.Is is the function GoError.is that unwraps.
* uuid.New() randomness is outside the model; NewPositionID returns a fixed
  identifier (no claim depends on ID values).
-/

namespace Trengin

/-- Go error values used by the package (trengin.go lines 28-33), plus a
context.Canceled value, an opaque broker-supplied error family, and a
constructor for errors produced by wrapping with a message. -/
inductive GoError where
  | errSendResultTimeout
  | errUnknownAction
  | errAlreadyClosed
  | errActionNotValid
  | ctxCanceled
  | brokerError (code : Nat)
  | wrapped (msg : String) (err : GoError)
deriving DecidableEq, Repr

/-- Model of errors.Is: the target matches the error itself or anything it
wraps. -/
def GoError.is (e t : GoError) : Bool :=
  if e = t then true
  else
    match e with
    | .wrapped _ inner => inner.is t
    | _ => false

/-- PositionID is a uuid in the source; its value is irrelevant to every
claim, so it is modelled as Nat. -/
abbrev PositionID := Nat

/-- Go: type PositionType int. Kept as the full integer type so that the
zero value and other invalid values exist, as they do in Go. -/
abbrev PositionType := Int

/-- Go: Long PositionType = iota + 1. -/
def Long : PositionType := 1

/-- Go: Short PositionType = 2. -/
def Short : PositionType := 2

/-- time.Time modelled as an integer timestamp. -/
abbrev Time := Int

/-- Multiplier returns 1 for Long, -1 for Short and 0 for any other value
(trengin.go lines 49-58). -/
def PositionType.Multiplier (t : PositionType) : ℚ :=
  if t = Long then 1
  else if t = Short then -1
  else 0

/-- IsLong returns true if position type is Long (trengin.go lines 61-63). -/
def PositionType.IsLong (t : PositionType) : Bool :=
  t = Long

/-- IsShort returns true if position type is Short (trengin.go lines 66-68). -/
def PositionType.IsShort (t : PositionType) : Bool :=
  t = Short

/-- IsValid returns true if the position type is Long or Short
(trengin.go lines 71-73). -/
def PositionType.IsValid (t : PositionType) : Bool :=
  t = Long || t = Short

/-- Inverse returns the inverted position type (trengin.go lines 76-81):
if t.IsShort() return Long; return Short. -/
def PositionType.Inverse (t : PositionType) : PositionType :=
  if t.IsShort then Long else Short

/-- NewPositionID creates a position ID; uuid randomness is outside the
model, so a fixed value is returned. -/
def NewPositionID : PositionID := 0

/-- Position (trengin.go lines 142-161).  The extras map is an association
list with opaque integer keys and values; closed models the one-shot close
guard and the close channel together (see the file header). -/
structure Position where
  ID : PositionID
  SecurityBoard : String
  SecurityCode : String
  FIGI : String
  type' : PositionType
  Quantity : Int
  OpenTime : Time
  OpenPrice : ℚ
  CloseTime : Time
  ClosePrice : ℚ
  StopLoss : ℚ
  TakeProfit : ℚ
  Commission : ℚ
  extra : List (Int × Int)
  closed : Bool
deriving DecidableEq, Repr

/-- OpenPositionAction (trengin.go lines 294-304).  The private result
channel is not part of the value; result delivery is modelled in the engine
section. -/
structure OpenPositionAction where
  SecurityBoard : String
  SecurityCode : String
  FIGI : String
  type' : PositionType
  Quantity : Int
  StopLossOffset : ℚ
  TakeProfitOffset : ℚ
deriving DecidableEq, Repr

/-- IsValid checks that the action is valid (trengin.go lines 307-309):
a.Type.IsValid() && a.Quantity > 0. -/
def OpenPositionAction.IsValid (a : OpenPositionAction) : Bool :=
  a.type'.IsValid && 0 < a.Quantity

/-- NewPosition (trengin.go lines 165-192): rejects an invalid action with
ErrActionNotValid, computes initial stop loss and take profit from the
offsets when they are nonzero, and builds the position with a fresh close
guard. -/
def NewPosition (action : OpenPositionAction) (openTime : Time) (openPrice : ℚ) :
    Except GoError Position :=
  if !action.IsValid then
    .error .errActionNotValid
  else
    let stopLoss : ℚ :=
      if action.StopLossOffset ≠ 0 then
        openPrice - action.StopLossOffset * action.type'.Multiplier
      else 0
    let takeProfit : ℚ :=
      if action.TakeProfitOffset ≠ 0 then
        openPrice + action.TakeProfitOffset * action.type'.Multiplier
      else 0
    .ok {
      ID := NewPositionID
      SecurityBoard := action.SecurityBoard
      SecurityCode := action.SecurityCode
      FIGI := action.FIGI
      type' := action.type'
      Quantity := action.Quantity
      OpenTime := openTime
      OpenPrice := openPrice
      CloseTime := 0
      ClosePrice := 0
      StopLoss := stopLoss
      TakeProfit := takeProfit
      Commission := 0
      extra := []
      closed := false }

/-- Close (trengin.go lines 197-206): err starts as ErrAlreadyClosed; the
once guard runs the body only on the first call, where it assigns CloseTime
and ClosePrice, closes the channel and sets err to nil.  Returns the updated
position and the returned error. -/
def Position.Close (p : Position) (closeTime : Time) (closePrice : ℚ) :
    Position × Option GoError :=
  if p.closed then
    (p, some .errAlreadyClosed)
  else
    ({ p with CloseTime := closeTime, ClosePrice := closePrice, closed := true }, none)

/-- Closed (trengin.go lines 209-211) returns the close channel; the model
reports whether that channel is closed, i.e. receivable. -/
def Position.Closed (p : Position) : Bool :=
  p.closed

/-- IsClosed (trengin.go lines 214-221): non-blocking select on Closed();
true exactly when the close channel is closed. -/
def Position.IsClosed (p : Position) : Bool :=
  p.Closed

/-- IsLong on a position (trengin.go lines 224-226). -/
def Position.IsLong (p : Position) : Bool :=
  p.type' = Long

/-- IsShort on a position (trengin.go lines 229-231). -/
def Position.IsShort (p : Position) : Bool :=
  p.type' = Short

/-- AddCommission (trengin.go lines 234-236): p.Commission += val. -/
def Position.AddCommission (p : Position) (val : ℚ) : Position :=
  { p with Commission := p.Commission + val }

/-- UnitCommission (trengin.go lines 250-252): Commission / float64(Quantity). -/
def Position.UnitCommission (p : Position) : ℚ :=
  p.Commission / (p.Quantity : ℚ)

/-- UnitProfit (trengin.go lines 245-247):
(ClosePrice - OpenPrice) * Type.Multiplier() - UnitCommission(). -/
def Position.UnitProfit (p : Position) : ℚ :=
  (p.ClosePrice - p.OpenPrice) * p.type'.Multiplier - p.UnitCommission

/-- Profit (trengin.go lines 240-242): UnitProfit() * float64(Quantity). -/
def Position.Profit (p : Position) : ℚ :=
  p.UnitProfit * (p.Quantity : ℚ)

/-- ProfitByPrice (trengin.go lines 255-257):
(price - OpenPrice) * Type.Multiplier() * float64(Quantity). -/
def Position.ProfitByPrice (p : Position) (price : ℚ) : ℚ :=
  (price - p.OpenPrice) * p.type'.Multiplier * (p.Quantity : ℚ)

/-- Duration (trengin.go lines 260-262): CloseTime - OpenTime. -/
def Position.Duration (p : Position) : Int :=
  p.CloseTime - p.OpenTime

/-- SetExtra (trengin.go lines 277-282): map assignment extra[key] = val,
modelled as an association-list update (new binding shadows the old). -/
def Position.SetExtra (p : Position) (key val : Int) : Position :=
  { p with extra := (key, val) :: p.extra }

/-- Extra (trengin.go lines 266-270): lookup by key, nil when absent. -/
def Position.Extra (p : Position) (key : Int) : Option Int :=
  (p.extra.find? (fun kv => kv.1 = key)).map (·.2)

/-!
Engine model.  The dispatcher (Engine.run, trengin.go lines 477-504) is a
loop over values received from the actions channel, interleaved with context
cancellation.  The model consumes a trace of dispatch events; each received
action event also carries the outcome of the synchronous broker call for it
(position and error) and the outcome of the guarded result send (the
three-way select at trengin.go lines 542-552, 581-590, 597-606: context
done, timer expiry, or a completed send).  The handlers doOpenPosition,
doClosePosition and doChangeConditionalOrder are modelled as functions from
those outcomes to an effects record: the handler's returned error, the
result value delivered on the action's private channel (none when nothing
was sent), which observer callbacks fired, and whether the closure-watcher
task was spawned.
-/

/-- Engine (trengin.go lines 427-435).  Only whether each observer callback
is installed matters to the claims; the send timeout duration is abstracted
into the per-send outcome. -/
structure Engine where
  onPositionOpenedSet : Bool
  onPositionClosedSet : Bool
  onConditionalOrderChangedSet : Bool
deriving DecidableEq, Repr

/-- Outcome of the three-way guarded select around a result send:
ctx.Done() fired first, the sendResultTimeout timer fired first, or the
send completed. -/
inductive SendOutcome where
  | ctxDone
  | timeout
  | sent
deriving DecidableEq, Repr

/-- OpenPositionActionResult (trengin.go lines 312-316): the position and
the embedded error; the tee side handed to the strategy is tracked by the
effects record. -/
structure OpenPositionActionResult where
  Position : Position
  error : Option GoError
deriving DecidableEq, Repr

/-- ClosePositionActionResult (trengin.go lines 363-366). -/
structure ClosePositionActionResult where
  Position : Position
  error : Option GoError
deriving DecidableEq, Repr

/-- ChangeConditionalOrderActionResult (trengin.go lines 399-402). -/
structure ChangeConditionalOrderActionResult where
  Position : Position
  error : Option GoError
deriving DecidableEq, Repr

/-- ClosePositionAction (trengin.go lines 349-352), without the private
result channel. -/
structure ClosePositionAction where
  PositionID : PositionID
deriving DecidableEq, Repr

/-- ChangeConditionalOrderAction (trengin.go lines 381-386), without the
private result channel. -/
structure ChangeConditionalOrderAction where
  PositionID : PositionID
  StopLoss : ℚ
  TakeProfit : ℚ
deriving DecidableEq, Repr

/-- Effects of one doOpenPosition call (trengin.go lines 539-576). -/
structure OpenEffects where
  ret : Option GoError
  delivered : Option OpenPositionActionResult
  teePrepared : Bool
  onPositionOpenedCalled : Bool
  watcherSpawned : Bool
deriving DecidableEq, Repr

/-- Effects of one doClosePosition call (trengin.go lines 578-592). -/
structure CloseEffects where
  ret : Option GoError
  delivered : Option ClosePositionActionResult
deriving DecidableEq, Repr

/-- Effects of one doChangeConditionalOrder call (trengin.go lines 594-615). -/
structure ChangeEffects where
  ret : Option GoError
  delivered : Option ChangeConditionalOrderActionResult
deriving DecidableEq, Repr

/-- doOpenPosition (trengin.go lines 539-576): the broker call yields
(position, closed, err); the tee is prepared unconditionally before the
select; the select either returns nil on ctx.Done(), returns a wrapped
ErrSendResultTimeout on timer expiry, or sends the result carrying the
broker error.  After a completed send: if the broker errored, return nil
at once (no watcher, no callback); otherwise spawn the closure-watcher and
invoke onPositionOpened when installed. -/
def Engine.doOpenPosition (e : Engine) (_action : OpenPositionAction)
    (brokerPos : Position) (brokerErr : Option GoError) (send : SendOutcome) :
    OpenEffects :=
  match send with
  | .ctxDone =>
      { ret := none, delivered := none, teePrepared := true
        onPositionOpenedCalled := false, watcherSpawned := false }
  | .timeout =>
      { ret := some (.wrapped "open position" .errSendResultTimeout)
        delivered := none, teePrepared := true
        onPositionOpenedCalled := false, watcherSpawned := false }
  | .sent =>
      match brokerErr with
      | some err =>
          { ret := none
            delivered := some { Position := brokerPos, error := some err }
            teePrepared := true
            onPositionOpenedCalled := false, watcherSpawned := false }
      | none =>
          { ret := none
            delivered := some { Position := brokerPos, error := none }
            teePrepared := true
            onPositionOpenedCalled := e.onPositionOpenedSet
            watcherSpawned := true }

/-- doClosePosition (trengin.go lines 578-592): deliver the broker result
under the guarded select; every completed path returns nil except timer
expiry. -/
def Engine.doClosePosition (_e : Engine) (_action : ClosePositionAction)
    (brokerPos : Position) (brokerErr : Option GoError) (send : SendOutcome) :
    CloseEffects :=
  match send with
  | .ctxDone => { ret := none, delivered := none }
  | .timeout =>
      { ret := some (.wrapped "close position" .errSendResultTimeout)
        delivered := none }
  | .sent =>
      { ret := none
        delivered := some { Position := brokerPos, error := brokerErr } }

/-- doChangeConditionalOrder (trengin.go lines 594-615): deliver the broker
result; after a completed send, invoke onConditionalOrderChanged only when
the broker call succeeded and the callback is installed. -/
def Engine.doChangeConditionalOrder (e : Engine)
    (_action : ChangeConditionalOrderAction)
    (brokerPos : Position) (brokerErr : Option GoError) (send : SendOutcome) :
    ChangeEffects × Bool :=
  match send with
  | .ctxDone => ({ ret := none, delivered := none }, false)
  | .timeout =>
      ({ ret := some (.wrapped "change conditional order" .errSendResultTimeout)
         delivered := none }, false)
  | .sent =>
      match brokerErr with
      | some err =>
          ({ ret := none
             delivered := some { Position := brokerPos, error := some err } }, false)
      | none =>
          ({ ret := none
             delivered := some { Position := brokerPos, error := none } },
           e.onConditionalOrderChangedSet)

/-- One value received by the dispatcher, tagged with the broker-call and
send outcomes that the handler for it observes; unknown carries the
formatted text of a value outside the tagged union. -/
inductive ActionExec where
  | openPos (a : OpenPositionAction) (brokerPos : Position)
      (brokerErr : Option GoError) (send : SendOutcome)
  | closePos (a : ClosePositionAction) (brokerPos : Position)
      (brokerErr : Option GoError) (send : SendOutcome)
  | changeOrder (a : ChangeConditionalOrderAction) (brokerPos : Position)
      (brokerErr : Option GoError) (send : SendOutcome)
  | unknown (desc : String)
deriving DecidableEq, Repr

/-- One iteration's input to the dispatcher select (trengin.go lines
479-482): the context completed with the given ctx.Err(), the actions
channel was closed by the strategy, or a value was received. -/
inductive DispatchEvent where
  | ctxDone (ctxErr : GoError)
  | chanClosed
  | recv (v : ActionExec)
deriving DecidableEq, Repr

/-- Result of one dispatcher iteration: keep looping, or return from
Engine.run with the given error (none is the nil return). -/
inductive StepResult where
  | cont
  | terminated (err : Option GoError)
deriving DecidableEq, Repr

/-- One iteration of the dispatcher loop (trengin.go lines 478-503):
ctx.Done() returns ctx.Err(); a closed actions channel returns nil; each
recognised action runs its handler and returns the handler error when it
is non-nil; any other received value returns a wrapped ErrUnknownAction. -/
def Engine.handleEvent (e : Engine) : DispatchEvent → StepResult
  | .ctxDone ctxErr => .terminated (some ctxErr)
  | .chanClosed => .terminated none
  | .recv (.openPos a pos err send) =>
      match (e.doOpenPosition a pos err send).ret with
      | some err' => .terminated (some err')
      | none => .cont
  | .recv (.closePos a pos err send) =>
      match (e.doClosePosition a pos err send).ret with
      | some err' => .terminated (some err')
      | none => .cont
  | .recv (.changeOrder a pos err send) =>
      match (e.doChangeConditionalOrder a pos err send).1.ret with
      | some err' => .terminated (some err')
      | none => .cont
  | .recv (.unknown desc) =>
      .terminated (some (.wrapped desc .errUnknownAction))

/-- Outcome of running the dispatcher over a trace of events: still blocked
waiting for more input, or returned with an error (none is nil). -/
inductive RunOutcome where
  | running
  | terminated (err : Option GoError)
deriving DecidableEq, Repr

/-- The dispatcher loop over a trace of events. -/
def Engine.runLoop (e : Engine) : List DispatchEvent → RunOutcome
  | [] => .running
  | ev :: rest =>
      match e.handleEvent ev with
      | .cont => e.runLoop rest
      | .terminated err => .terminated err

/-- errgroup.Group.Wait: the first non-nil error among the task returns,
or nil when every task returned nil. -/
def errgroupWait (results : List (Option GoError)) : Option GoError :=
  results.findSome? id

/-- Engine.Run (trengin.go lines 451-475) returns g.Wait() over the broker
runner task, the strategy task and the dispatcher task; the dispatcher's
contribution is what runLoop returned on the trace (none while it is still
blocked, since a blocked task contributes no error). -/
def Engine.RunResult (e : Engine) (brokerRes strategyRes : Option GoError)
    (events : List DispatchEvent) : Option GoError :=
  errgroupWait [brokerRes, strategyRes,
    match e.runLoop events with
    | .terminated err => err
    | .running => none]

/-- Iterated Close calls: threads the position through a list of
closeTime-closePrice pairs and collects each call's returned error. -/
def Position.closeAll (p : Position) : List (Time × ℚ) → Position × List (Option GoError)
  | [] => (p, [])
  | (t, x) :: rest =>
      let r := p.Close t x
      let r2 := r.1.closeAll rest
      (r2.1, r.2 :: r2.2)

/-- The state-mutating operations the source defines on a Position:
Close, AddCommission and SetExtra. -/
inductive PosOp where
  | close (t : Time) (x : ℚ)
  | addCommission (v : ℚ)
  | setExtra (key val : Int)
deriving DecidableEq, Repr

/-- Apply one mutating operation to a position (the error returned by
Close is dropped; only the resulting state matters here). -/
def Position.applyOp (p : Position) : PosOp → Position
  | .close t x => (p.Close t x).1
  | .addCommission v => p.AddCommission v
  | .setExtra k v => p.SetExtra k v

/-- Sample open action used by concrete witnesses. -/
def sampleOpenAction : OpenPositionAction :=
  { SecurityBoard := "TQBR", SecurityCode := "SBER", FIGI := "BBG004730N88"
    type' := Long, Quantity := 2, StopLossOffset := 1, TakeProfitOffset := 2 }

/-- The position NewPosition builds from sampleOpenAction at time 0 and
price 10. -/
def sampleOpenPosition : Position :=
  { ID := 0, SecurityBoard := "TQBR", SecurityCode := "SBER"
    FIGI := "BBG004730N88", type' := Long, Quantity := 2
    OpenTime := 0, OpenPrice := 10, CloseTime := 0, ClosePrice := 0
    StopLoss := 9, TakeProfit := 12, Commission := 1, extra := []
    closed := false }

/-- A closed sample position used by concrete witnesses. -/
def sampleClosedPosition : Position :=
  { ID := 0, SecurityBoard := "TQBR", SecurityCode := "SBER"
    FIGI := "BBG004730N88", type' := Long, Quantity := 2
    OpenTime := 0, OpenPrice := 10, CloseTime := 5, ClosePrice := 15
    StopLoss := 9, TakeProfit := 12, Commission := 1, extra := []
    closed := true }

/-- Sample engine with no observer callbacks installed. -/
def sampleEngine : Engine :=
  { onPositionOpenedSet := false, onPositionClosedSet := false
    onConditionalOrderChangedSet := false }

/-- Close on an already-closed position returns the position unchanged
together with ErrAlreadyClosed. -/
theorem Position.close_closed_eq (p : Position) (t : Time) (x : ℚ)
    (h : p.closed = true) : p.Close t x = (p, some .errAlreadyClosed) := by
  simp [Position.Close, h]

/-- Iterated Close calls on an already-closed position leave the state
unchanged and return ErrAlreadyClosed every time. -/
theorem Position.closeAll_closed (p : Position) (h : p.closed = true)
    (calls : List (Time × ℚ)) :
    (p.closeAll calls).1 = p ∧
    ∀ er ∈ (p.closeAll calls).2, er = some GoError.errAlreadyClosed := by
  induction calls with
  | nil => simp [Position.closeAll]
  | cons c rest ih =>
      obtain ⟨t, x⟩ := c
      simp only [Position.closeAll, Position.close_closed_eq p t x h]
      refine ⟨ih.1, ?_⟩
      intro er her
      simp only [List.mem_cons] at her
      rcases her with h1 | h2
      · exact h1
      · exact ih.2 er h2

/-- C1: on a freshly constructed position the first Close call returns nil
and records the given close time and price; the immediately following call
and every later call return ErrAlreadyClosed and leave CloseTime and
ClosePrice exactly as the successful call set them. -/
theorem close_succeeds_exactly_once (p : Position) (t1 t2 : Time) (x1 x2 : ℚ)
    (h : p.closed = false) :
    (p.Close t1 x1).2 = none ∧
    (p.Close t1 x1).1.CloseTime = t1 ∧
    (p.Close t1 x1).1.ClosePrice = x1 ∧
    ((p.Close t1 x1).1.Close t2 x2).2 = some .errAlreadyClosed ∧
    ((p.Close t1 x1).1.Close t2 x2).1.CloseTime = t1 ∧
    ((p.Close t1 x1).1.Close t2 x2).1.ClosePrice = x1 ∧
    ∀ calls : List (Time × ℚ),
      ((p.Close t1 x1).1.closeAll calls).1.CloseTime = t1 ∧
      ((p.Close t1 x1).1.closeAll calls).1.ClosePrice = x1 ∧
      ∀ er ∈ ((p.Close t1 x1).1.closeAll calls).2,
        er = some GoError.errAlreadyClosed := by
  have h1 : p.Close t1 x1 =
      ({ p with CloseTime := t1, ClosePrice := x1, closed := true }, none) := by
    simp [Position.Close, h]
  have hc : (p.Close t1 x1).1.closed = true := by rw [h1]
  refine ⟨?_, ?_, ?_, ?_, ?_, ?_, ?_⟩
  · rw [h1]
  · rw [h1]
  · rw [h1]
  · rw [Position.close_closed_eq _ t2 x2 hc]
  · rw [Position.close_closed_eq _ t2 x2 hc, h1]
  · rw [Position.close_closed_eq _ t2 x2 hc, h1]
  · intro calls
    have hall := Position.closeAll_closed (p.Close t1 x1).1 hc calls
    refine ⟨?_, ?_, hall.2⟩
    · rw [hall.1, h1]
    · rw [hall.1, h1]

/-- Witness for C1 at a concrete freshly opened position. -/
theorem close_succeeds_exactly_once_witness :
    sampleOpenPosition.closed = false ∧
    (sampleOpenPosition.Close 5 15).2 = none ∧
    ((sampleOpenPosition.Close 5 15).1.Close 7 20).2 =
      some GoError.errAlreadyClosed ∧
    ((sampleOpenPosition.Close 5 15).1.Close 7 20).1.CloseTime = 5 ∧
    ((sampleOpenPosition.Close 5 15).1.Close 7 20).1.ClosePrice = 15 := by
  have h := close_succeeds_exactly_once sampleOpenPosition 5 7 15 20 rfl
  exact ⟨rfl, h.1, h.2.2.2.1, h.2.2.2.2.1, h.2.2.2.2.2.1⟩

/-- C2: NewPosition rejects an action with ErrActionNotValid exactly when
the action is invalid, and the action is valid exactly when its type is
Long or Short and its quantity is positive. -/
theorem newPosition_rejects_invalid (a : OpenPositionAction) (t : Time) (pr : ℚ) :
    (NewPosition a t pr = .error .errActionNotValid ↔ a.IsValid = false) ∧
    (a.IsValid = true ↔ ((a.type' = Long ∨ a.type' = Short) ∧ 0 < a.Quantity)) := by
  constructor
  · cases hv : a.IsValid with
    | false => simp [NewPosition, hv]
    | true => simp [NewPosition, hv]
  · simp [OpenPositionAction.IsValid, PositionType.IsValid]

/-- C3: for every action accepted by NewPosition, the initial stop loss is
openPrice minus the offset times the type multiplier when the offset is
nonzero (0 otherwise), and the initial take profit is openPrice plus the
offset times the type multiplier when the offset is nonzero (0 otherwise). -/
theorem newPosition_conditional_orders (a : OpenPositionAction) (t : Time)
    (pr : ℚ) (p : Position) (h : NewPosition a t pr = .ok p) :
    (p.StopLoss =
      if a.StopLossOffset ≠ 0 then pr - a.StopLossOffset * a.type'.Multiplier
      else 0) ∧
    (p.TakeProfit =
      if a.TakeProfitOffset ≠ 0 then pr + a.TakeProfitOffset * a.type'.Multiplier
      else 0) := by
  cases hv : a.IsValid with
  | false => simp [NewPosition, hv] at h
  | true =>
      simp only [NewPosition, hv, Bool.not_true, Bool.false_eq_true, if_false,
        if_neg, Except.ok.injEq] at h
      subst h
      constructor <;> rfl

/-- The position NewPosition actually returns for sampleOpenAction at time
0 and price 10 (projected out of the Except value). -/
def sampleBuiltPosition : Position :=
  match NewPosition sampleOpenAction 0 10 with
  | .ok p => p
  | .error _ => sampleOpenPosition

/-- Witness for C3 at a concrete valid long action with offsets 1 and 2 at
opening price 10. -/
theorem newPosition_conditional_orders_witness :
    NewPosition sampleOpenAction 0 10 = .ok sampleBuiltPosition ∧
    sampleBuiltPosition.StopLoss = 9 ∧
    sampleBuiltPosition.TakeProfit = 12 := by
  have h : NewPosition sampleOpenAction 0 10 = .ok sampleBuiltPosition := rfl
  have h2 := newPosition_conditional_orders sampleOpenAction 0 10
    sampleBuiltPosition h
  refine ⟨h, ?_, ?_⟩
  · rw [h2.1]
    norm_num [sampleOpenAction, PositionType.Multiplier, Long, Short]
  · rw [h2.2]
    norm_num [sampleOpenAction, PositionType.Multiplier, Long, Short]

/-- C4: for positions of type Long or Short with positive quantity, the
derived computations equal the reference formulas of the specification. -/
theorem profit_formulas (p : Position) (price : ℚ)
    (hT : p.type' = Long ∨ p.type' = Short) (hQ : 1 ≤ p.Quantity) :
    p.ProfitByPrice price =
      (price - p.OpenPrice) * p.type'.Multiplier * (p.Quantity : ℚ) ∧
    p.Profit = p.UnitProfit * (p.Quantity : ℚ) ∧
    p.UnitProfit =
      (p.ClosePrice - p.OpenPrice) * p.type'.Multiplier - p.UnitCommission ∧
    p.UnitCommission = p.Commission / (p.Quantity : ℚ) :=
  ⟨rfl, rfl, rfl, rfl⟩

/-- Witness for C4 at a concrete closed long position of quantity 2. -/
theorem profit_formulas_witness :
    sampleClosedPosition.Profit =
      sampleClosedPosition.UnitProfit * (sampleClosedPosition.Quantity : ℚ) ∧
    sampleClosedPosition.UnitCommission =
      sampleClosedPosition.Commission / (sampleClosedPosition.Quantity : ℚ) :=
  ⟨(profit_formulas sampleClosedPosition 12 (Or.inl rfl) (by decide)).2.1,
   (profit_formulas sampleClosedPosition 12 (Or.inl rfl) (by decide)).2.2.2⟩

/-- C5: for positions with positive quantity, profit at the opening price
is zero, and the realised profit is the profit at the close price minus the
accumulated commission. -/
theorem profit_identities (p : Position)
    (hT : p.type' = Long ∨ p.type' = Short) (hQ : 1 ≤ p.Quantity) :
    p.ProfitByPrice p.OpenPrice = 0 ∧
    p.Profit = p.ProfitByPrice p.ClosePrice - p.Commission := by
  have hq0 : (p.Quantity : ℚ) ≠ 0 := by
    have : (0 : ℤ) < p.Quantity := by omega
    exact_mod_cast this.ne'
  constructor
  · simp [Position.ProfitByPrice]
  · unfold Position.Profit Position.UnitProfit Position.UnitCommission
      Position.ProfitByPrice
    field_simp

/-- Witness for C5 at a concrete closed long position of quantity 2. -/
theorem profit_identities_witness :
    sampleClosedPosition.ProfitByPrice sampleClosedPosition.OpenPrice = 0 ∧
    sampleClosedPosition.Profit =
      sampleClosedPosition.ProfitByPrice sampleClosedPosition.ClosePrice -
        sampleClosedPosition.Commission :=
  profit_identities sampleClosedPosition (Or.inl rfl) (by decide)

/-- Every mutating operation the source defines preserves the closed
state of a position. -/
theorem Position.applyOp_closed (q : Position) (op : PosOp)
    (hq : q.IsClosed = true) : (q.applyOp op).IsClosed = true := by
  cases op with
  | close t x =>
      have hc : q.closed = true := hq
      simp [Position.applyOp, Position.close_closed_eq q t x hc,
        Position.IsClosed, Position.Closed, hc]
  | addCommission v =>
      simpa [Position.applyOp, Position.AddCommission, Position.IsClosed,
        Position.Closed] using hq
  | setExtra k v =>
      simpa [Position.applyOp, Position.SetExtra, Position.IsClosed,
        Position.Closed] using hq

/-- C6: immediately after a successful Close the close channel is closed,
hence receivable, and IsClosed reports true; and IsClosed is monotone, since
no operation on a position ever resets the closed state. -/
theorem close_then_closed_and_monotone (p : Position) (t : Time) (x : ℚ)
    (h : (p.Close t x).2 = none) :
    (p.Close t x).1.Closed = true ∧
    (p.Close t x).1.IsClosed = true ∧
    ∀ (q : Position) (ops : List PosOp), q.IsClosed = true →
      (ops.foldl Position.applyOp q).IsClosed = true := by
  have hc : p.closed = false := by
    cases hcl : p.closed with
    | false => rfl
    | true =>
        rw [Position.close_closed_eq p t x hcl] at h
        exact absurd h (by simp)
  have h1 : (p.Close t x).1.closed = true := by simp [Position.Close, hc]
  refine ⟨h1, h1, ?_⟩
  intro q ops
  induction ops generalizing q with
  | nil => intro hq; simpa using hq
  | cons op rest ih =>
      intro hq
      simp only [List.foldl_cons]
      exact ih _ (Position.applyOp_closed q op hq)

/-- Witness for C6: a concrete position closed once, then hit with further
mutating operations, stays closed. -/
theorem close_then_closed_and_monotone_witness :
    (sampleOpenPosition.Close 5 15).1.IsClosed = true ∧
    ([PosOp.addCommission 1, PosOp.setExtra 0 1].foldl Position.applyOp
      (sampleOpenPosition.Close 5 15).1).IsClosed = true := by
  have h := close_then_closed_and_monotone sampleOpenPosition 5 15 rfl
  exact ⟨h.2.1, h.2.2 _ _ h.2.1⟩

/-- C7: the dispatcher returns nil when the actions channel is closed, and
returns an error wrapping ErrUnknownAction when it receives a value outside
the tagged union; with the other tasks returning nil, Run returns that
error. -/
theorem dispatcher_channel_close_and_unknown (e : Engine)
    (events : List DispatchEvent) (d : String) :
    e.handleEvent .chanClosed = .terminated none ∧
    e.runLoop (.chanClosed :: events) = .terminated none ∧
    e.handleEvent (.recv (.unknown d)) =
      .terminated (some (.wrapped d .errUnknownAction)) ∧
    (GoError.wrapped d .errUnknownAction).is .errUnknownAction = true ∧
    e.RunResult none none (.recv (.unknown d) :: events) =
      some (.wrapped d .errUnknownAction) := by
  refine ⟨rfl, rfl, rfl, ?_, rfl⟩
  simp [GoError.is]

/-- C8: when a broker call returns a non-nil error and the result send
completes, the result delivered to the strategy carries that error, the
handler returns nil (so the engine keeps dispatching), and for every send
outcome the observer callbacks are not invoked and the closure-watcher is
not spawned for that action. -/
theorem broker_errors_not_fatal (e : Engine) (a : OpenPositionAction)
    (c : ChangeConditionalOrderAction) (cl : ClosePositionAction)
    (pos : Position) (err : GoError) :
    (e.doOpenPosition a pos (some err) .sent).ret = none ∧
    (e.doOpenPosition a pos (some err) .sent).delivered =
      some { Position := pos, error := some err } ∧
    (e.doOpenPosition a pos (some err) .sent).onPositionOpenedCalled = false ∧
    (e.doOpenPosition a pos (some err) .sent).watcherSpawned = false ∧
    (e.doChangeConditionalOrder c pos (some err) .sent).1.ret = none ∧
    (e.doChangeConditionalOrder c pos (some err) .sent).1.delivered =
      some { Position := pos, error := some err } ∧
    (e.doChangeConditionalOrder c pos (some err) .sent).2 = false ∧
    (e.doClosePosition cl pos (some err) .sent).ret = none ∧
    (e.doClosePosition cl pos (some err) .sent).delivered =
      some { Position := pos, error := some err } ∧
    ∀ s : SendOutcome,
      (e.doOpenPosition a pos (some err) s).onPositionOpenedCalled = false ∧
      (e.doOpenPosition a pos (some err) s).watcherSpawned = false ∧
      (e.doChangeConditionalOrder c pos (some err) s).2 = false := by
  refine ⟨rfl, rfl, rfl, rfl, rfl, rfl, rfl, rfl, rfl, ?_⟩
  intro s
  cases s <;> exact ⟨rfl, rfl, rfl⟩

/-- C9 as claimed is false on the code: with external cancellation and
every other task returning nil, Run does not return nil, because the
dispatcher returns ctx.Err() and errgroup.Wait propagates the first
non-nil error. -/
theorem run_external_cancel_counterexample :
    sampleEngine.RunResult none none [.ctxDone .ctxCanceled] =
      some .ctxCanceled ∧
    sampleEngine.RunResult none none [.ctxDone .ctxCanceled] ≠ none :=
  ⟨rfl, by decide⟩

/-- C9 amended: when the caller's context is cancelled externally, the
other tasks return nil, and the dispatcher observes the cancellation, Run
returns the cancellation error context.Canceled rather than nil. -/
theorem run_returns_cancellation (e : Engine)
    (brokerRes strategyRes : Option GoError) (events : List DispatchEvent)
    (hb : brokerRes = none) (hs : strategyRes = none)
    (hd : e.runLoop events = .terminated (some .ctxCanceled)) :
    e.RunResult brokerRes strategyRes events = some .ctxCanceled := by
  subst hb hs
  simp [Engine.RunResult, errgroupWait, hd]

/-- Witness for the amended C9 on a concrete cancellation trace. -/
theorem run_returns_cancellation_witness :
    sampleEngine.runLoop [DispatchEvent.ctxDone .ctxCanceled] =
      .terminated (some .ctxCanceled) ∧
    sampleEngine.RunResult none none [DispatchEvent.ctxDone .ctxCanceled] =
      some .ctxCanceled :=
  ⟨rfl, run_returns_cancellation sampleEngine none none
    [DispatchEvent.ctxDone .ctxCanceled] rfl rfl rfl⟩

/-- C10: Inverse returns Long exactly on Short and Short on every other
value; in particular on an invalid type it returns the valid type Short,
and applying Inverse twice to an invalid type does not give the type back. -/
theorem inverse_of_invalid_is_short (t : PositionType) :
    t.Inverse = (if t = Short then Long else Short) ∧
    (t.IsValid = false →
      t.Inverse = Short ∧ t.Inverse.IsValid = true ∧ t.Inverse.Inverse ≠ t) := by
  constructor
  · by_cases hs : t = Short
    · simp [PositionType.Inverse, PositionType.IsShort, hs]
    · simp [PositionType.Inverse, PositionType.IsShort, hs]
  · intro hv
    have hns : t ≠ Short := by
      intro hs
      rw [hs] at hv
      simp [PositionType.IsValid] at hv
    have hnl : t ≠ Long := by
      intro hl
      rw [hl] at hv
      simp [PositionType.IsValid] at hv
    have h1 : t.Inverse = Short := by
      simp [PositionType.Inverse, PositionType.IsShort, hns]
    refine ⟨h1, ?_, ?_⟩
    · rw [h1]; decide
    · rw [h1]
      have h2 : Short.Inverse = Long := rfl
      rw [h2]
      exact fun he => hnl he.symm

/-- Witness for C10 at the zero value of PositionType. -/
theorem inverse_of_invalid_is_short_witness :
    (0 : PositionType).IsValid = false ∧
    (0 : PositionType).Inverse = Short ∧
    (0 : PositionType).Inverse.Inverse ≠ (0 : PositionType) := by
  have h := (inverse_of_invalid_is_short 0).2 (by decide)
  exact ⟨by decide, h.1, h.2.2⟩

end Trengin
